import Mathlib

/-!
# Verification of the arduino-router MessagePack-RPC core

A shallow embedding, in Lean 4, of the parts of the `arduino-router`
repository that its specification talks about:

* the numeric widening coercions `ToInt` / `ToUint`
  (`msgpackrpc/type_conversion.go`);
* the connection decode loop and envelope validation
  (`msgpackrpc/connection.go`, `Run` / `processIncomingMessage`);
* inbound request bookkeeping with duplicate-id supersession
  (`handleIncomingRequest` and its completion goroutine);
* outbound request correlation (`handleIncomingResponse`, `SendRequest`),
  including id allocation from the 32-bit counter;
* the router dispatch engine (`internal/msgpackrouter`: `$/register`,
  `$/reset`, internal routes, forwarding, method-not-available).

Go maps are embedded as association lists, goroutine identities as `Nat`
tokens, and dynamically typed `any` values as the inductive `GoVal`.
Machine integers are `Nat`/`Int` with explicit bounds or `% 2 ^ 32` where
the Go code wraps.
-/

namespace ArduinoRouter

/-- A dynamically-typed Go value (`any`) as it comes out of the msgpack
decoder: every integer width keeps its own constructor because the Go code
switches on the concrete dynamic type. -/
inductive GoVal where
  | vint (v : Int)
  | vint8 (v : Int)
  | vint16 (v : Int)
  | vint32 (v : Int)
  | vint64 (v : Int)
  | vuint (v : Nat)
  | vuint8 (v : Nat)
  | vuint16 (v : Nat)
  | vuint32 (v : Nat)
  | vuint64 (v : Nat)
  | vstr (s : String)
  | vbool (b : Bool)
  | vnil
  | varr (xs : List GoVal)

/-- `math.MaxInt64`. -/
def maxInt64 : Int := 2 ^ 63 - 1

/-- `ToInt` from `msgpackrpc/type_conversion.go`: converts a value of any
type to a Go `int`, returning the converted value and a success flag.
Unsigned 64-bit inputs above `math.MaxInt64` are rejected; every other
integer width is widened losslessly; non-integers fail. -/
def ToInt : GoVal → Int × Bool
  | .vint v => (v, true)
  | .vint8 v => (v, true)
  | .vint16 v => (v, true)
  | .vint32 v => (v, true)
  | .vint64 v => (v, true)
  | .vuint v => if (v : Int) > maxInt64 then (0, false) else ((v : Int), true)
  | .vuint8 v => ((v : Int), true)
  | .vuint16 v => ((v : Int), true)
  | .vuint32 v => ((v : Int), true)
  | .vuint64 v => if (v : Int) > maxInt64 then (0, false) else ((v : Int), true)
  | _ => (0, false)

/-- `ToUint` from `msgpackrpc/type_conversion.go`: converts a value of any
type to a Go `uint`, rejecting negative signed inputs and non-integers. -/
def ToUint : GoVal → Nat × Bool
  | .vint v => if v < 0 then (0, false) else (v.toNat, true)
  | .vint8 v => if v < 0 then (0, false) else (v.toNat, true)
  | .vint16 v => if v < 0 then (0, false) else (v.toNat, true)
  | .vint32 v => if v < 0 then (0, false) else (v.toNat, true)
  | .vint64 v => if v < 0 then (0, false) else (v.toNat, true)
  | .vuint v => (v, true)
  | .vuint8 v => (v, true)
  | .vuint16 v => (v, true)
  | .vuint32 v => (v, true)
  | .vuint64 v => (v, true)
  | _ => (0, false)

/-- The value is one of the ten Go integer widths. -/
def isIntegerVal : GoVal → Bool
  | .vint _ | .vint8 _ | .vint16 _ | .vint32 _ | .vint64 _ => true
  | .vuint _ | .vuint8 _ | .vuint16 _ | .vuint32 _ | .vuint64 _ => true
  | _ => false

/-- The value is one of the five unsigned Go integer widths. -/
def isUnsignedVal : GoVal → Bool
  | .vuint _ | .vuint8 _ | .vuint16 _ | .vuint32 _ | .vuint64 _ => true
  | _ => false

/-- The mathematical value carried by an integer `GoVal` (0 otherwise). -/
def intValue : GoVal → Int
  | .vint v | .vint8 v | .vint16 v | .vint32 v | .vint64 v => v
  | .vuint v | .vuint8 v | .vuint16 v | .vuint32 v | .vuint64 v => (v : Int)
  | _ => 0

/-- The carried value fits the range of its Go width (Go `int`/`uint` are
64-bit on the reference platform). -/
def inWidthRange : GoVal → Prop
  | .vint v => -2 ^ 63 ≤ v ∧ v < 2 ^ 63
  | .vint8 v => -2 ^ 7 ≤ v ∧ v < 2 ^ 7
  | .vint16 v => -2 ^ 15 ≤ v ∧ v < 2 ^ 15
  | .vint32 v => -2 ^ 31 ≤ v ∧ v < 2 ^ 31
  | .vint64 v => -2 ^ 63 ≤ v ∧ v < 2 ^ 63
  | .vuint v => v < 2 ^ 64
  | .vuint8 v => v < 2 ^ 8
  | .vuint16 v => v < 2 ^ 16
  | .vuint32 v => v < 2 ^ 32
  | .vuint64 v => v < 2 ^ 64
  | _ => True

example : ToInt (.vuint64 (2 ^ 63)) = (0, false) := by decide
example : ToInt (.vuint32 4000000000) = (4000000000, true) := by decide
example : ToUint (.vint8 (-5)) = (0, false) := by decide
example : ToUint (.vint16 300) = (300, true) := by decide
example : ToUint (.vstr "x") = (0, false) := by decide

/-- **C9.** For every integer input of any Go width, `ToUint` returns the
mathematically equal unsigned value with success exactly when the input is
non-negative, and `(0, false)` for every negative input; `ToInt` widens any
width to `int`, returning `(0, false)` exactly when an unsigned input
exceeds `MaxInt64`; both functions fail on any non-integer input. -/
theorem toUint_toInt_widening_coercion (g : GoVal) (h : inWidthRange g) :
    (isIntegerVal g = true →
      ((ToUint g).2 = true ↔ 0 ≤ intValue g) ∧
      (0 ≤ intValue g → ToUint g = ((intValue g).toNat, true)) ∧
      (intValue g < 0 → ToUint g = (0, false)) ∧
      ((ToInt g).2 = false ↔ isUnsignedVal g = true ∧ maxInt64 < intValue g) ∧
      ((ToInt g).2 = true → ToInt g = (intValue g, true)) ∧
      ((ToInt g).2 = false → ToInt g = (0, false))) ∧
    (isIntegerVal g = false → ToUint g = (0, false) ∧ ToInt g = (0, false)) := by
  cases g <;>
    simp only [isIntegerVal, isUnsignedVal, ToUint, ToInt, intValue, inWidthRange,
      maxInt64, Bool.true_eq_false, Bool.false_eq_true, false_implies, true_implies,
      IsEmpty.forall_iff, and_true, true_and, and_self, implies_true] at h ⊢ <;>
    try constructor
  all_goals
    try (split_ifs <;>
      simp_all only [Prod.mk.injEq, and_true, true_and, and_self, iff_true, iff_false,
        not_le, not_lt, false_iff, true_iff, Bool.true_eq_false, not_and, implies_true,
        false_implies, true_implies, and_false, false_and, not_true_eq_false,
        not_false_eq_true] <;>
      omega)
  all_goals
    simp_all only [Prod.mk.injEq, and_true, true_and, and_self, iff_true, iff_false,
      Bool.true_eq_false, false_iff, true_iff, not_and, implies_true, false_implies,
      true_implies, and_false, false_and, Int.natCast_nonneg, Int.toNat_natCast] <;>
    omega

/-- Witness for C9 at the concrete input `int8(-5)`. -/
theorem toUint_toInt_widening_coercion_witness :
    inWidthRange (GoVal.vint8 (-5)) ∧ ToUint (GoVal.vint8 (-5)) = (0, false) :=
  ⟨by simp only [inWidthRange]; decide,
    ((toUint_toInt_widening_coercion (GoVal.vint8 (-5)) (by simp only [inWidthRange]; decide)).1
      (by decide)).2.2.1 (by decide)⟩

/-! ## The connection decode loop (`Run` / `processIncomingMessage`) -/

/-- Go type assertion `v.(string)`. -/
def asString : GoVal → Option String
  | .vstr s => some s
  | _ => none

/-- Go type assertion `v.([]any)`. -/
def asArr : GoVal → Option (List GoVal)
  | .varr xs => some xs
  | _ => none

/-- One call to `DecodeInterface` in `Run` either fails (EOF or I/O error)
or yields a value. -/
inductive DecodeEvent where
  | decodeErr
  | val (v : GoVal)

/-- What one iteration of the `Run` loop does with a frame. -/
inductive RunAction where
  | reportReadError
  | reportInvalid (msg : String)
  | dispatchRequest (id : Nat) (method : String) (params : List GoVal)
  | dispatchResponse (id : Nat) (reqError reqResult : GoVal)
  | dispatchNotification (method : String) (params : List GoVal)

/-- `processIncomingMessage` from `msgpackrpc/connection.go`: validates the
envelope of a decoded array and dispatches it, or returns the error the Go
code hands to the error handler. Checks are in source order: length ≥ 3,
integer type discriminator, per-type element count, then field types. -/
def processIncomingMessage : List GoVal → Except String RunAction
  | d0 :: d1 :: d2 :: rest =>
    match ToInt d0 with
    | (msgType, true) =>
      if msgType = 0 then
        match rest with
        | [d3] =>
          match ToUint d1 with
          | (id, true) =>
            match asString d2 with
            | some method =>
              match asArr d3 with
              | some params => .ok (.dispatchRequest id method params)
              | none => .error "invalid request, expected params (array) as fourth element"
            | none => .error "invalid request, expected method (string) as third element"
          | (_, false) => .error "invalid request, expected msgid (uint) as second element"
        | _ => .error "invalid request, expected array with 4 elements"
      else if msgType = 1 then
        match rest with
        | [d3] =>
          match ToUint d1 with
          | (id, true) => .ok (.dispatchResponse id d2 d3)
          | (_, false) => .error "invalid response, expected msgid (uint) as second element"
        | _ => .error "invalid response, expected array with 4 elements"
      else if msgType = 2 then
        match rest with
        | [] =>
          match asString d1 with
          | some method =>
            match asArr d2 with
            | some params => .ok (.dispatchNotification method params)
            | none => .error "invalid notification, expected params (array) as third element"
          | none => .error "invalid notification, expected method (string) as second element"
        | _ => .error "invalid notification, expected array with 3 elements"
      else .error "invalid packet, expected request, response or notification"
    | (_, false) => .error "invalid packet, expected int as first element"
  | _ => .error "invalid packet, expected array with at least 3 elements"

/-- The error `Run` reports for a decoded value with an invalid envelope,
when there is one: a non-array value is reported and skipped inside `Run`
itself; an array is passed to `processIncomingMessage`, whose error (if
any) `Run` reports before continuing. -/
def invalidEnvelope (v : GoVal) : Option String :=
  match asArr v with
  | none => some "invalid packet, expected array"
  | some data =>
    match processIncomingMessage data with
    | .error e => some e
    | .ok _ => none

/-- The `Run` loop of `msgpackrpc/connection.go` over a finite script of
decode outcomes. Returns the actions taken, in order, and whether the loop
returned (`true` exactly on a decode failure; an exhausted script leaves
the loop still running, blocked on the next read). -/
def connRun : List DecodeEvent → List RunAction × Bool
  | [] => ([], false)
  | .decodeErr :: _ => ([.reportReadError], true)
  | .val v :: rest =>
    match asArr v with
    | none =>
      let r := connRun rest
      (.reportInvalid "invalid packet, expected array" :: r.1, r.2)
    | some data =>
      match processIncomingMessage data with
      | .error e =>
        let r := connRun rest
        (.reportInvalid e :: r.1, r.2)
      | .ok a =>
        let r := connRun rest
        (a :: r.1, r.2)

example :
    connRun [.val (.varr [.vint8 2, .vstr "m", .varr []]), .val (.vbool true),
      .val (.varr [.vint8 9, .vnil, .vnil]), .decodeErr, .val (.vbool true)] =
    ([.dispatchNotification "m" [], .reportInvalid "invalid packet, expected array",
      .reportInvalid "invalid packet, expected request, response or notification",
      .reportReadError], true) := rfl

lemma connRun_terminates_iff (evs : List DecodeEvent) :
    (connRun evs).2 = true ↔ DecodeEvent.decodeErr ∈ evs := by
  induction evs with
  | nil => simp [connRun]
  | cons h t ih =>
    cases h with
    | decodeErr => simp [connRun]
    | val v =>
      simp only [connRun]
      cases hv : asArr v with
      | none => simpa using ih
      | some data =>
        cases hp : processIncomingMessage data with
        | error e => simpa [hp] using ih
        | ok a => simpa [hp] using ih

lemma connRun_stops_at_decodeErr (pre post : List DecodeEvent)
    (h : DecodeEvent.decodeErr ∉ pre) :
    connRun (pre ++ DecodeEvent.decodeErr :: post) =
      ((connRun pre).1 ++ [.reportReadError], true) := by
  induction pre with
  | nil => simp [connRun]
  | cons hd t ih =>
    have hhd : hd ≠ DecodeEvent.decodeErr := fun he => h (he ▸ List.mem_cons_self hd t)
    have ht : DecodeEvent.decodeErr ∉ t := fun he => h (List.mem_cons_of_mem hd he)
    cases hd with
    | decodeErr => exact absurd rfl hhd
    | val v =>
      simp only [List.cons_append, connRun]
      cases hv : asArr v with
      | none => simp [ih ht]
      | some data =>
        cases hp : processIncomingMessage data with
        | error e => simp [hp, ih ht]
        | ok a => simp [hp, ih ht]

lemma connRun_skips_invalid (v : GoVal) (rest : List DecodeEvent) (e : String)
    (h : invalidEnvelope v = some e) :
    connRun (.val v :: rest) =
      (.reportInvalid e :: (connRun rest).1, (connRun rest).2) := by
  cases hv : asArr v with
  | none =>
    simp only [invalidEnvelope, hv, Option.some.injEq] at h
    subst h
    simp [connRun, hv]
  | some data =>
    simp only [invalidEnvelope, hv] at h
    cases hp : processIncomingMessage data with
    | error e2 =>
      simp only [hp, Option.some.injEq] at h
      subst h
      simp [connRun, hv, hp]
    | ok a => simp [hp] at h

lemma connRun_dispatches_valid (data : List GoVal) (a : RunAction)
    (rest : List DecodeEvent) (h : processIncomingMessage data = .ok a) :
    connRun (.val (.varr data) :: rest) =
      (a :: (connRun rest).1, (connRun rest).2) := by
  simp [connRun, asArr, h]

/-- **C5.** The `Run` loop terminates exactly when decoding the next
top-level MessagePack value fails, which is reported to the error handler
(nothing after the failure is processed); every successfully decoded value
with an invalid envelope is reported to the error handler and skipped with
the loop continuing; well-formed envelopes are dispatched and the loop
continues. -/
theorem run_loop_error_handling :
    (∀ evs, (connRun evs).2 = true ↔ DecodeEvent.decodeErr ∈ evs) ∧
    (∀ pre post, DecodeEvent.decodeErr ∉ pre →
      connRun (pre ++ DecodeEvent.decodeErr :: post) =
        ((connRun pre).1 ++ [.reportReadError], true)) ∧
    (∀ v rest e, invalidEnvelope v = some e →
      connRun (.val v :: rest) =
        (.reportInvalid e :: (connRun rest).1, (connRun rest).2)) ∧
    (∀ data a rest, processIncomingMessage data = .ok a →
      connRun (.val (.varr data) :: rest) =
        (a :: (connRun rest).1, (connRun rest).2)) :=
  ⟨connRun_terminates_iff, connRun_stops_at_decodeErr,
   connRun_skips_invalid, connRun_dispatches_valid⟩

/-- Witness for C5: a malformed frame (a bare boolean) is reported and
skipped, then a decode failure is reported and stops the loop, with the
trailing event never processed. -/
theorem run_loop_error_handling_witness :
    connRun [.val (.vbool true), .decodeErr, .val (.vbool false)] =
      ([.reportInvalid "invalid packet, expected array", .reportReadError], true) := by
  have h := run_loop_error_handling.2.1 [.val (.vbool true)]
    [.val (.vbool false)] (by simp)
  simpa [connRun, asArr] using h

/-! ## Inbound request bookkeeping (`handleIncomingRequest`) -/

/-- Remove every pair with the given key: Go `delete(map, id)`. -/
def eraseKey (id : Nat) (l : List (Nat × Nat)) : List (Nat × Nat) :=
  l.filter (fun p => p.1 != id)

lemma lookup_eraseKey_self (id : Nat) (l : List (Nat × Nat)) :
    (eraseKey id l).lookup id = none := by
  induction l with
  | nil => rfl
  | cons p t ih =>
    by_cases h : p.1 = id
    · simpa [eraseKey, h] using ih
    · have h2 : (id == p.1) = false := by
        simp only [beq_eq_false_iff_ne]
        exact fun he => h he.symm
      simpa [eraseKey, List.filter_cons, h, List.lookup, h2] using ih

/-- The response frame `[1, id, reqError, reqResult]` written when an
inbound handler completes. -/
structure Response where
  id : Nat
  reqError : GoVal
  reqResult : GoVal

/-- Per-connection inbound state: the `activeInRequests` map (each spawned
handler goroutine gets a distinct `Nat` token, embedding the Go pointer
identity of its `inRequest`), the tokens whose `cancel` has been fired,
and the number of protocol-violation reports made so far. -/
structure InState where
  activeIn : List (Nat × Nat)
  canceled : List Nat
  violations : Nat

/-- `handleIncomingRequest` (connection.go lines 185-197): if an entry for
`id` is already active, cancel it and report a protocol violation; either
way the new request's entry replaces any existing one (Go map
assignment). -/
def handleIncomingRequest (s : InState) (id tok : Nat) : InState :=
  match s.activeIn.lookup id with
  | some old =>
      { activeIn := (id, tok) :: eraseKey id s.activeIn,
        canceled := old :: s.canceled,
        violations := s.violations + 1 }
  | none => { s with activeIn := (id, tok) :: eraseKey id s.activeIn }

/-- The tail of the goroutine spawned by `handleIncomingRequest`
(connection.go lines 203-226), entered when the handler returns
`(reqResult, reqError)`: the entry is removed and the Response written
only if the table still maps `id` to this very request; a superseded
request returns without transmitting anything. -/
def completeInRequest (s : InState) (id tok : Nat) (reqResult reqError : GoVal) :
    InState × Option Response :=
  match s.activeIn.lookup id with
  | some cur =>
      if cur = tok then
        ({ s with activeIn := eraseKey id s.activeIn, canceled := tok :: s.canceled },
         some ⟨id, reqError, reqResult⟩)
      else (s, none)
  | none => (s, none)

/-- **C3.** When a Request arrives whose id is already active, the prior
handler is canceled, a protocol-violation error is reported, and the new
request replaces the entry; the superseded handler's eventual result is
never transmitted, while the replacement handler's reply is written as the
Response for that id. -/
theorem duplicate_inbound_id_supersedes (s : InState) (id tok1 tok2 : Nat)
    (r1 e1 r2 e2 : GoVal)
    (hact : s.activeIn.lookup id = some tok1) (hne : tok2 ≠ tok1) :
    tok1 ∈ (handleIncomingRequest s id tok2).canceled ∧
    (handleIncomingRequest s id tok2).violations = s.violations + 1 ∧
    (handleIncomingRequest s id tok2).activeIn.lookup id = some tok2 ∧
    completeInRequest (handleIncomingRequest s id tok2) id tok1 r1 e1 =
      (handleIncomingRequest s id tok2, none) ∧
    (completeInRequest (handleIncomingRequest s id tok2) id tok2 r2 e2).2 =
      some ⟨id, e2, r2⟩ := by
  have hs : handleIncomingRequest s id tok2 =
      { activeIn := (id, tok2) :: eraseKey id s.activeIn,
        canceled := tok1 :: s.canceled,
        violations := s.violations + 1 } := by
    simp [handleIncomingRequest, hact]
  rw [hs]
  refine ⟨List.mem_cons_self _ _, rfl, by simp [List.lookup], ?_, ?_⟩
  · simp [completeInRequest, List.lookup, hne]
  · simp [completeInRequest, List.lookup]

/-- Witness for C3: id 1 is active with token 10; a second request with
token 11 supersedes it, the old completion sends nothing, the new one
sends `Response(1, nil, true)`. -/
theorem duplicate_inbound_id_supersedes_witness :
    10 ∈ (handleIncomingRequest ⟨[(1, 10)], [], 0⟩ 1 11).canceled ∧
    (handleIncomingRequest ⟨[(1, 10)], [], 0⟩ 1 11).violations = 0 + 1 ∧
    (handleIncomingRequest ⟨[(1, 10)], [], 0⟩ 1 11).activeIn.lookup 1 = some 11 ∧
    completeInRequest (handleIncomingRequest ⟨[(1, 10)], [], 0⟩ 1 11) 1 10
      (.vbool true) .vnil = (handleIncomingRequest ⟨[(1, 10)], [], 0⟩ 1 11, none) ∧
    (completeInRequest (handleIncomingRequest ⟨[(1, 10)], [], 0⟩ 1 11) 1 11
      (.vbool true) .vnil).2 = some ⟨1, .vnil, .vbool true⟩ :=
  duplicate_inbound_id_supersedes ⟨[(1, 10)], [], 0⟩ 1 10 11
    (.vbool true) .vnil (.vbool true) .vnil (by simp [List.lookup]) (by decide)

/-! ## Outbound request correlation (`handleIncomingResponse`) -/

/-- What the connection does with an inbound Response frame. -/
inductive RespAction where
  | deliver (cb : Nat) (reqError reqResult : GoVal)
  | reportUnknownId

/-- `handleIncomingResponse` (connection.go lines 252-269): look up and
remove `activeOutRequests[id]`; if present, push the received pair into
the stored result channel (`cb` names the channel); if absent, report the
unknown-id error and leave the table unchanged. -/
def handleIncomingResponse (outReqs : List (Nat × Nat)) (id : Nat)
    (reqError reqResult : GoVal) : List (Nat × Nat) × RespAction :=
  match outReqs.lookup id with
  | some cb => (eraseKey id outReqs, .deliver cb reqError reqResult)
  | none => (outReqs, .reportUnknownId)

/-- **C7.** On receipt of a Response frame: if `out_requests` contains the
id, the entry is removed and its stored callback is invoked exactly once
with the received `(result, error)`; if the id is absent, the unknown-id
error is reported and `out_requests` is left unchanged. -/
theorem response_correlation (m : List (Nat × Nat)) (id : Nat)
    (e r : GoVal) :
    (∀ cb, m.lookup id = some cb →
      handleIncomingResponse m id e r = (eraseKey id m, .deliver cb e r) ∧
      (eraseKey id m).lookup id = none) ∧
    (m.lookup id = none →
      handleIncomingResponse m id e r = (m, .reportUnknownId)) := by
  constructor
  · intro cb hcb
    exact ⟨by simp [handleIncomingResponse, hcb], lookup_eraseKey_self id m⟩
  · intro hnone
    simp [handleIncomingResponse, hnone]

/-- Witness for C7: with entry `(4, 9)` active, a Response for id 4 is
delivered to callback 9 and the entry removed. -/
theorem response_correlation_witness :
    handleIncomingResponse [(4, 9)] 4 .vnil (.vbool true) =
      (eraseKey 4 [(4, 9)], .deliver 9 .vnil (.vbool true)) ∧
    (eraseKey 4 [(4, 9)]).lookup 4 = none :=
  (response_correlation [(4, 9)] 4 .vnil (.vbool true)).1 9 (by simp [List.lookup])

/-! ## Outbound id allocation (`SendRequest`, `lastOutRequestsIndex`) -/

/-- `MessageID(c.lastOutRequestsIndex.Add(1))`: the 32-bit atomic counter
is incremented and wraps modulo `2 ^ 32`; the result is the allocated
id. No check against `activeOutRequests` is made. -/
def nextOutId (counter : Nat) : Nat := (counter + 1) % 2 ^ 32

/-- The counter value after `k` calls to `SendRequest` on a fresh
connection (the atomic counter starts at 0; the id of allocation `k` is
`counterAfter k`). -/
def counterAfter : Nat → Nat
  | 0 => 0
  | k + 1 => nextOutId (counterAfter k)

/-- The allocation-and-install step of `SendRequest` (connection.go lines
288-301): take the next id from the counter and install the `outRequest`
under it — a plain Go map assignment that silently overwrites any active
entry with the same id. -/
def sendRequestAlloc (counter : Nat) (outReqs : List (Nat × Nat)) (cb : Nat) :
    Nat × List (Nat × Nat) :=
  (nextOutId counter, (nextOutId counter, cb) :: eraseKey (nextOutId counter) outReqs)

lemma counterAfter_eq_mod (k : Nat) : counterAfter k = k % 2 ^ 32 := by
  induction k with
  | zero => rfl
  | succ n ih =>
    simp only [counterAfter, nextOutId, ih]
    omega

/-- **C8 counterexample.** The first `SendRequest` of a connection gets id
1; after `2 ^ 32` allocations the counter has wrapped to 0, and the next
allocation hands out id 1 again even though the entry `(1, 7)` from the
first allocation is still active — the implementation neither refuses nor
skips the active id, it overwrites the entry. -/
theorem outbound_id_wraparound_collision :
    counterAfter 1 = 1 ∧
    counterAfter (2 ^ 32) = 0 ∧
    (sendRequestAlloc (counterAfter (2 ^ 32)) [(1, 7)] 8).1 = 1 ∧
    List.lookup 1 [((1 : Nat), (7 : Nat))] = some 7 ∧
    (sendRequestAlloc (counterAfter (2 ^ 32)) [(1, 7)] 8).2 = [(1, 8)] := by
  have h0 : counterAfter (2 ^ 32) = 0 := by
    rw [counterAfter_eq_mod]
    omega
  refine ⟨rfl, h0, ?_, by simp [List.lookup], ?_⟩
  · rw [h0]; rfl
  · rw [h0]; rfl

/-- **C8 (amended).** Outbound ids are allocated by incrementing a 32-bit
counter modulo `2 ^ 32` with no freshness check: ids are pairwise distinct
within any window of `2 ^ 32` consecutive allocations, and the id repeats
after exactly `2 ^ 32` further allocations — so an id collides with an
active entry exactly when that entry has survived `2 ^ 32` subsequent
allocations, and the colliding allocation overwrites the entry. -/
theorem outbound_id_window_freshness (i j : Nat) (hij : i < j)
    (hw : j < i + 2 ^ 32) :
    counterAfter i ≠ counterAfter j ∧
    counterAfter (i + 2 ^ 32) = counterAfter i ∧
    (∀ counter outReqs cb,
      (sendRequestAlloc counter outReqs cb).2 =
        (nextOutId counter, cb) :: eraseKey (nextOutId counter) outReqs) := by
  refine ⟨?_, ?_, fun _ _ _ => rfl⟩
  · rw [counterAfter_eq_mod, counterAfter_eq_mod]
    omega
  · rw [counterAfter_eq_mod, counterAfter_eq_mod]
    omega

/-- Witness for the amended C8 at `i = 1`, `j = 2`. -/
theorem outbound_id_window_freshness_witness :
    (1 : Nat) < 2 ∧ (2 : Nat) < 1 + 2 ^ 32 ∧ counterAfter 1 ≠ counterAfter 2 :=
  ⟨by norm_num, by norm_num,
    (outbound_id_window_freshness 1 2 (by norm_num) (by norm_num)).1⟩

/-! ## `SendRequest` cancellation (connection.go lines 288-337) -/

/-- Events visible to a blocked `SendRequest`: its result channel fires
(the matching Response arrived and `handleIncomingResponse` delivered it),
or the caller's context is done. -/
inductive AwaitEvent where
  | response (reqError reqResult : GoVal)
  | ctxDone

/-- What `SendRequest` did from the await point on: the notifications it
sent, the `(reqResult, reqError)` pair handed to the caller (`none` while
still blocked), and the Go `err` return value (`none` embeds `nil`). -/
structure SendOutcome where
  notifications : List (String × List GoVal)
  returned : Option (GoVal × GoVal)
  goErr : Option String

/-- The tail of the `select` after a context cancellation
(`result = <-resultChan` on line 329): only a value on the result channel
unblocks it; further context signals change nothing; the
`activeOutRequests` entry is removed exactly when the Response is
delivered. -/
def awaitResponseOnly (id : Nat) (m : List (Nat × Nat)) :
    List AwaitEvent → List (Nat × Nat) × SendOutcome
  | [] => (m, ⟨[], none, none⟩)
  | .response e r :: _ => (eraseKey id m, ⟨[], some (r, e), none⟩)
  | .ctxDone :: rest => awaitResponseOnly id m rest

/-- The `select` of `SendRequest` (lines 310-336), entered once the
Request frame has been written and the `outRequest` installed under `id`
in map `m`. On a result: return `(reqResult, reqError, nil)`. On
`ctx.Done()`: if the entry is still active, send the `$/cancelRequest`
notification carrying the id; then block again awaiting the result. The
entry is never removed on this path. -/
def sendRequestAwait (id : Nat) (m : List (Nat × Nat)) :
    List AwaitEvent → List (Nat × Nat) × SendOutcome
  | [] => (m, ⟨[], none, none⟩)
  | .response e r :: _ => (eraseKey id m, ⟨[], some (r, e), none⟩)
  | .ctxDone :: rest =>
    let notifs : List (String × List GoVal) :=
      if (m.lookup id).isSome then [("$/cancelRequest", [GoVal.vuint id])] else []
    let out := awaitResponseOnly id m rest
    (out.1, ⟨notifs ++ out.2.notifications, out.2.returned, out.2.goErr⟩)

/-- **C4 counterexample.** Request id 5 is outstanding (entry `(5, 9)`)
when the caller's context is canceled: the connection sends
`$/cancelRequest [5]`, but the caller does not return a cancellation
error — it stays blocked until the real Response arrives and then returns
that Response's `(result, error)` with a nil Go error. -/
theorem send_request_cancellation_counterexample :
    sendRequestAwait 5 [(5, 9)] [.ctxDone, .response .vnil (.vbool true)] =
      ([], ⟨[("$/cancelRequest", [GoVal.vuint 5])], some (.vbool true, .vnil), none⟩) ∧
    (sendRequestAwait 5 [(5, 9)] [.ctxDone]).2.returned = none ∧
    (sendRequestAwait 5 [(5, 9)] [.ctxDone]).2.goErr = none :=
  ⟨rfl, rfl, rfl⟩

/-- Helper: the post-cancellation wait sends no further notifications. -/
lemma awaitResponseOnly_no_notifications (id : Nat) (m : List (Nat × Nat))
    (evs : List AwaitEvent) : (awaitResponseOnly id m evs).2.notifications = [] := by
  induction evs with
  | nil => rfl
  | cons e t ih => cases e <;> simp [awaitResponseOnly, ih]

/-- Helper: with no response event, the post-cancellation wait leaves the
map untouched and returns nothing. -/
lemma awaitResponseOnly_all_ctxDone (id : Nat) (m : List (Nat × Nat))
    (evs : List AwaitEvent) (h : ∀ x ∈ evs, x = AwaitEvent.ctxDone) :
    awaitResponseOnly id m evs = (m, ⟨[], none, none⟩) := by
  induction evs with
  | nil => rfl
  | cons e t ih =>
    have he := h e (List.mem_cons_self e t)
    subst he
    exact ih fun x hx => h x (List.mem_cons_of_mem _ hx)

/-- **C4 (amended).** If the caller's context is canceled while a
`SendRequest` is outstanding, the connection sends a `$/cancelRequest`
notification carrying the request's id (exactly when the entry is still
active), and the `OutboundRequest` entry is retained until a matching
Response arrives — so a late Response is delivered to the stored callback
rather than triggering the unknown-id protocol violation. The caller,
however, does not return a cancellation error: it stays blocked and
eventually returns the matching Response's `(result, error)` with a nil
Go error. -/
theorem send_request_cancellation_behavior (id cb : Nat)
    (m : List (Nat × Nat)) (rest : List AwaitEvent)
    (hactive : m.lookup id = some cb) :
    ((sendRequestAwait id m (.ctxDone :: rest)).2.notifications =
      [("$/cancelRequest", [GoVal.vuint id])]) ∧
    ((∀ x ∈ rest, x = AwaitEvent.ctxDone) →
      sendRequestAwait id m (.ctxDone :: rest) =
        (m, ⟨[("$/cancelRequest", [GoVal.vuint id])], none, none⟩)) ∧
    (∀ e r, (handleIncomingResponse m id e r).2 = .deliver cb e r) ∧
    (∀ pre e r post, (∀ x ∈ pre, x = AwaitEvent.ctxDone) →
      sendRequestAwait id m (.ctxDone :: (pre ++ .response e r :: post)) =
        (eraseKey id m,
          ⟨[("$/cancelRequest", [GoVal.vuint id])], some (r, e), none⟩)) := by
  refine ⟨?_, ?_, ?_, ?_⟩
  · simp [sendRequestAwait, hactive, awaitResponseOnly_no_notifications]
  · intro hall
    simp [sendRequestAwait, hactive, awaitResponseOnly_all_ctxDone id m rest hall]
  · intro e r
    simp [handleIncomingResponse, hactive]
  · intro pre e r post hall
    have hrec : awaitResponseOnly id m (pre ++ .response e r :: post) =
        (eraseKey id m, ⟨[], some (r, e), none⟩) := by
      induction pre with
      | nil => rfl
      | cons x t ih =>
        have hx := hall x (List.mem_cons_self x t)
        subst hx
        exact ih fun y hy => hall y (List.mem_cons_of_mem _ hy)
    simp [sendRequestAwait, hactive, hrec]

/-- Witness for the amended C4: id 5 active with callback 9, one
cancellation followed by the Response. -/
theorem send_request_cancellation_behavior_witness :
    (sendRequestAwait 5 [(5, 9)]
        [.ctxDone, .response .vnil (.vbool true)]).2.notifications =
      [("$/cancelRequest", [GoVal.vuint 5])] ∧
    (handleIncomingResponse [(5, 9)] 5 .vnil (.vbool true)).2 =
      .deliver 9 .vnil (.vbool true) :=
  have h := send_request_cancellation_behavior 5 9 [(5, 9)]
    [.response .vnil (.vbool true)] (by simp [List.lookup])
  ⟨h.1, h.2.2.1 .vnil (.vbool true)⟩

/-! ## `NewConnection` handler defaulting (connection.go lines 68-98) -/

/-- A request handler: `(method, params) → (result, err)`. -/
abbrev ReqHandler := String → List GoVal → GoVal × GoVal

/-- A notification handler, modelled by the effects it performs. -/
abbrev NotifHandler := String → List GoVal → List String

/-- An error handler, modelled by the effects it performs. -/
abbrev ErrHandler := String → List String

/-- The default installed when `requestHandler` is nil: answer every
request with `(nil, fmt.Errorf("method not implemented: %s", method))`. -/
def defaultRequestHandler : ReqHandler := fun method _ =>
  (.vnil, .vstr ("method not implemented: " ++ method))

/-- The default installed when `notificationHandler` is nil: ignore
notifications (no effect). -/
def defaultNotificationHandler : NotifHandler := fun _ _ => []

/-- The default installed when `errorHandler` is nil: ignore errors
(no effect). -/
def defaultErrorHandler : ErrHandler := fun _ => []

/-- The three handlers a constructed `Connection` carries. -/
structure ConnHandlers where
  requestHandler : ReqHandler
  notificationHandler : NotifHandler
  errorHandler : ErrHandler

/-- `NewConnection`'s nil-replacement logic: each nil (`none`) handler
argument is replaced by its default before the `Connection` record is
built, so every stored handler is total. -/
def newConnectionHandlers (rh : Option ReqHandler) (nh : Option NotifHandler)
    (eh : Option ErrHandler) : ConnHandlers :=
  ⟨rh.getD defaultRequestHandler, nh.getD defaultNotificationHandler,
   eh.getD defaultErrorHandler⟩

/-- **C10.** `NewConnection` accepts nil for any handler argument: a nil
requestHandler is replaced by a default answering every request with nil
result and the error "method not implemented: <method>", a nil
notificationHandler by one that ignores notifications, a nil errorHandler
by one that ignores errors — and a connection built with nil handlers
answers an inbound request with exactly that Response. -/
theorem new_connection_nil_handlers (rh : Option ReqHandler)
    (nh : Option NotifHandler) (eh : Option ErrHandler)
    (method e : String) (params : List GoVal)
    (s : InState) (id tok : Nat) (hfresh : s.activeIn.lookup id = none) :
    (rh = none →
      (newConnectionHandlers rh nh eh).requestHandler method params =
        (.vnil, .vstr ("method not implemented: " ++ method))) ∧
    (nh = none →
      (newConnectionHandlers rh nh eh).notificationHandler method params = []) ∧
    (eh = none → (newConnectionHandlers rh nh eh).errorHandler e = []) ∧
    ((completeInRequest (handleIncomingRequest s id tok) id tok
        ((newConnectionHandlers none none none).requestHandler method params).1
        ((newConnectionHandlers none none none).requestHandler method params).2).2 =
      some ⟨id, .vstr ("method not implemented: " ++ method), .vnil⟩) := by
  refine ⟨fun h => by subst h; rfl, fun h => by subst h; rfl,
    fun h => by subst h; rfl, ?_⟩
  simp [handleIncomingRequest, hfresh, completeInRequest, List.lookup,
    newConnectionHandlers, defaultRequestHandler]

/-- Witness for C10: a fresh connection with all-nil handlers answers
request 3 for method "tocancel" with the not-implemented error. -/
theorem new_connection_nil_handlers_witness :
    (completeInRequest (handleIncomingRequest ⟨[], [], 0⟩ 3 1) 3 1
        ((newConnectionHandlers none none none).requestHandler "tocancel" []).1
        ((newConnectionHandlers none none none).requestHandler "tocancel" []).2).2 =
      some ⟨3, .vstr ("method not implemented: " ++ "tocancel"), .vnil⟩ :=
  (new_connection_nil_handlers none none none "tocancel" "" [] ⟨[], [], 0⟩ 3 1
    rfl).2.2.2

/-! ## The router (`internal/msgpackrouter`) -/

/-- Router error codes (`internal/msgpackrouter`). -/
def ErrCodeInvalidParams : Int := 1

def ErrCodeMethodNotAvailable : Int := 2

def ErrCodeFailedToSendRequests : Int := 3

def ErrCodeGenericError : Int := 4

def ErrCodeRouteAlreadyExists : Int := 5

/-- `routerError(code int8, message)`: the `[code, message]` wire pair,
built with an 8-bit code. -/
def routerError (code : Int) (message : String) : GoVal :=
  .varr [.vint8 code, .vstr message]

/-- `RouteError.ToEncodedError()`: `[m.code, m.message]` with a Go `int`
code. -/
def routeErrorEncoded (code : Int) (message : String) : GoVal :=
  .varr [.vint code, .vstr message]

/-- Go's `%T` on the dynamic type of a decoded value. -/
def goTypeName : GoVal → String
  | .vint _ => "int"
  | .vint8 _ => "int8"
  | .vint16 _ => "int16"
  | .vint32 _ => "int32"
  | .vint64 _ => "int64"
  | .vuint _ => "uint"
  | .vuint8 _ => "uint8"
  | .vuint16 _ => "uint16"
  | .vuint32 _ => "uint32"
  | .vuint64 _ => "uint64"
  | .vstr _ => "string"
  | .vbool _ => "bool"
  | .vnil => "<nil>"
  | .varr _ => "[]interface {}"

/-- Router state: the external routing table `routes` (method name →
connection id), the internal table `routesInternal` (method name →
handler id), and the `sendMaxWorkers` field stored by `New`. -/
structure Router where
  routes : List (String × Nat)
  routesInternal : List (String × Nat)
  sendMaxWorkers : Int

/-- `New(perConnMaxWorkers)`: empty tables, the bound stored in
`sendMaxWorkers`. -/
def RouterNew (perConnMaxWorkers : Int) : Router :=
  ⟨[], [], perConnMaxWorkers⟩

/-- `registerMethod(method, conn)` (the `$/register` back end): fails with
`RouteAlreadyExists` iff `routes` already has the name; `routesInternal`
is not consulted. -/
def registerMethod (r : Router) (method : String) (conn : Nat) :
    Except (Int × String) Router :=
  match r.routes.lookup method with
  | some _ => .error (ErrCodeRouteAlreadyExists, "route already exists: " ++ method)
  | none => .ok { r with routes := (method, conn) :: r.routes }

/-- `removeMethodsFromConnection(conn)`: drop every external route owned
by `conn`. Run by the `$/reset` intrinsic and again after `Run` returns
on disconnect. -/
def removeMethodsFromConnection (r : Router) (conn : Nat) : Router :=
  { r with routes := r.routes.filter (fun p => p.2 != conn) }

/-- What the router's request handler does with an inbound request. -/
inductive DispatchResult where
  | respond (result : GoVal) (err : GoVal)
  | callInternal (handler : Nat)
  | forward (target : Nat)

/-- The request-handler closure built in `connectionLoop` (lines
128-191): the intrinsics `$/register` and `$/reset` are handled first,
then a matching handler in `routesInternal` (internal methods shadow
external ones), then forwarding to the connection in `routes`; otherwise
respond with the MethodNotAvailable error. -/
def dispatchRequest (r : Router) (conn : Nat) (method : String)
    (params : List GoVal) : Router × DispatchResult :=
  if method = "$/register" then
    match params with
    | [p] =>
      match asString p with
      | some m =>
        match registerMethod r m conn with
        | .ok r2 => (r2, .respond (.vbool true) .vnil)
        | .error (c, msg) => (r, .respond .vnil (routeErrorEncoded c msg))
      | none => (r, .respond .vnil (routerError ErrCodeInvalidParams
          ("invalid params: expected string, got " ++ goTypeName p)))
    | _ => (r, .respond .vnil (routerError ErrCodeInvalidParams
        ("invalid params: only one param is expected, got " ++
          toString params.length)))
  else if method = "$/reset" then
    match params with
    | [] => (removeMethodsFromConnection r conn, .respond (.vbool true) .vnil)
    | _ => (r, .respond .vnil (routerError ErrCodeInvalidParams
        "invalid params: no params are expected"))
  else
    match r.routesInternal.lookup method with
    | some h => (r, .callInternal h)
    | none =>
      match r.routes.lookup method with
      | some c => (r, .forward c)
      | none => (r, .respond .vnil (routerError ErrCodeMethodNotAvailable
          ("method " ++ method ++ " not available")))

example :
    (dispatchRequest (RouterNew 0) 2 "xxxx" [.vint8 1, .vbool true]).2 =
      .respond .vnil (.varr [.vint8 2, .vstr "method xxxx not available"]) := rfl

example :
    (dispatchRequest ⟨[("ping", 1)], [], 0⟩ 1 "$/register" [.vstr "ping"]).2 =
      .respond .vnil (.varr [.vint 5, .vstr "route already exists: ping"]) := rfl

/-- The dispatch outcome is an immediate response (neither an internal
call nor a forward). -/
def DispatchResult.isRespond : DispatchResult → Bool
  | .respond _ _ => true
  | _ => false

/-- **C2.** Dispatch of an inbound request follows a fixed precedence:
the intrinsics `$/register` and `$/reset` are answered by the router
itself, then a matching handler in `routesInternal` wins (internal
methods shadow external ones), then the request is forwarded to the
connection registered in `routes`; if none matches, the originator gets a
Response with nil result and error `[2, "method <m> not available"]`. -/
theorem dispatch_follows_precedence (r : Router) (conn : Nat) :
    (∀ params, ((dispatchRequest r conn "$/register" params).2).isRespond = true) ∧
    (∀ params, ((dispatchRequest r conn "$/reset" params).2).isRespond = true) ∧
    (∀ method params h, method ≠ "$/register" → method ≠ "$/reset" →
      r.routesInternal.lookup method = some h →
      dispatchRequest r conn method params = (r, .callInternal h)) ∧
    (∀ method params c, method ≠ "$/register" → method ≠ "$/reset" →
      r.routesInternal.lookup method = none →
      r.routes.lookup method = some c →
      dispatchRequest r conn method params = (r, .forward c)) ∧
    (∀ method params, method ≠ "$/register" → method ≠ "$/reset" →
      r.routesInternal.lookup method = none →
      r.routes.lookup method = none →
      dispatchRequest r conn method params =
        (r, .respond .vnil (.varr [.vint8 2,
          .vstr ("method " ++ method ++ " not available")]))) := by
  refine ⟨?_, ?_, ?_, ?_, ?_⟩
  · intro params
    match params with
    | [] => rfl
    | p :: q :: rest => rfl
    | [p] =>
      cases p <;> try rfl
      case vstr s =>
        cases hl : r.routes.lookup s <;>
          simp [dispatchRequest, registerMethod, asString, hl, DispatchResult.isRespond]
  · intro params
    match params with
    | [] => rfl
    | p :: rest => rfl
  · intro method params h hm1 hm2 hint
    simp [dispatchRequest, hm1, hm2, hint]
  · intro method params c hm1 hm2 hint hroute
    simp [dispatchRequest, hm1, hm2, hint, hroute]
  · intro method params hm1 hm2 hint hroute
    simp [dispatchRequest, hm1, hm2, hint, hroute, routerError,
      ErrCodeMethodNotAvailable]

/-- Witness for C2: with `ping` registered externally, internal handler 3
for `info`, requests dispatch per precedence and `xxxx` gets the
MethodNotAvailable error. -/
theorem dispatch_follows_precedence_witness :
    dispatchRequest ⟨[("ping", 1)], [("info", 3)], 0⟩ 2 "info" [] =
      (⟨[("ping", 1)], [("info", 3)], 0⟩, .callInternal 3) ∧
    dispatchRequest ⟨[("ping", 1)], [("info", 3)], 0⟩ 2 "ping" [] =
      (⟨[("ping", 1)], [("info", 3)], 0⟩, .forward 1) ∧
    dispatchRequest ⟨[("ping", 1)], [("info", 3)], 0⟩ 2 "xxxx" [] =
      (⟨[("ping", 1)], [("info", 3)], 0⟩, .respond .vnil
        (.varr [.vint8 2, .vstr ("method " ++ "xxxx" ++ " not available")])) :=
  have h := dispatch_follows_precedence ⟨[("ping", 1)], [("info", 3)], 0⟩ 2
  ⟨h.2.2.1 "info" [] 3 (by decide) (by decide) (by simp [List.lookup]),
   h.2.2.2.1 "ping" [] 1 (by decide) (by decide) (by simp [List.lookup])
     (by simp [List.lookup]),
   h.2.2.2.2 "xxxx" [] (by decide) (by decide) (by simp [List.lookup])
     (by simp [List.lookup])⟩

/-- **C1 counterexample.** With internal handler 0 registered for method
`m` and no external route, `$/register("m")` succeeds — the duplicate
check consults only the external table, so the claim's "no existing route,
external or internal" fails on the internal side. -/
theorem register_ignores_internal_routes :
    (dispatchRequest ⟨[], [("m", 0)], 0⟩ 7 "$/register" [.vstr "m"]).2 =
      .respond (.vbool true) .vnil ∧
    (Router.routesInternal ⟨[], [("m", 0)], 0⟩).lookup "m" = some 0 :=
  ⟨rfl, rfl⟩

lemma lookup_none_of_key_not_mem (l : List (String × Nat)) (m : String)
    (h : m ∉ l.map Prod.fst) : l.lookup m = none := by
  induction l with
  | nil => rfl
  | cons p t ih =>
    have h1 : p.1 ≠ m := fun he => h (List.mem_map.2 ⟨p, List.mem_cons_self p t, he⟩)
    have h2 : (m == p.1) = false := by
      simp only [beq_eq_false_iff_ne]
      exact fun he => h1 he.symm
    simp only [List.lookup, h2]
    exact ih fun hm => h (by rw [List.map_cons]; exact List.mem_cons_of_mem _ hm)

lemma remove_owner_lookup_none (l : List (String × Nat)) (m : String)
    (conn : Nat) (hl : l.lookup m = some conn)
    (hnd : (l.map Prod.fst).Nodup) :
    (l.filter (fun p => p.2 != conn)).lookup m = none := by
  induction l with
  | nil => simp [List.lookup] at hl
  | cons p t ih =>
    by_cases hm : m = p.1
    · have hkey : (m == p.1) = true := by simp [hm]
      have hval : p.2 = conn := by
        simpa [List.lookup, hkey] using hl
      have hdrop : (p.2 != conn) = false := by simp [hval]
      have hmem : m ∉ (t.filter (fun p => p.2 != conn)).map Prod.fst := by
        intro hmem
        obtain ⟨q, hq, hq1⟩ := List.mem_map.1 hmem
        have hq2 : q ∈ t := (List.mem_filter.1 hq).1
        have : p.1 ∈ t.map Prod.fst := hm ▸ hq1 ▸ List.mem_map_of_mem Prod.fst hq2
        exact (List.nodup_cons.1 hnd).1 this
      simp only [List.filter_cons, hdrop]
      exact lookup_none_of_key_not_mem _ _ hmem
    · have hkey : (m == p.1) = false := by
        simp only [beq_eq_false_iff_ne]
        exact hm
      have hl2 : t.lookup m = some conn := by
        simpa [List.lookup, hkey] using hl
      have ihn := ih hl2 (List.nodup_cons.1 hnd).2
      by_cases hkeep : (p.2 != conn) = true
      · simp only [List.filter_cons, hkeep, List.lookup, hkey]
        exact ihn
      · simp only [List.filter_cons, Bool.not_eq_true] at hkeep
        simp only [List.filter_cons, hkeep]
        exact ihn

/-- **C1 (amended).** A `$/register` request carrying the single string
argument `m` succeeds iff no existing **external** route owns `m` (the
internal table is not consulted); on a duplicate any peer — the original
registrant included — receives `[5, "route already exists: m"]` with nil
result, and this holds until the route owner disconnects or calls
`$/reset`, both of which run `removeMethodsFromConnection` and free the
name. -/
theorem register_external_uniqueness (r : Router) (conn conn2 : Nat)
    (m : String) :
    ((dispatchRequest r conn "$/register" [.vstr m]).2 =
        .respond (.vbool true) .vnil ↔ r.routes.lookup m = none) ∧
    (∀ c, r.routes.lookup m = some c →
      (dispatchRequest r conn2 "$/register" [.vstr m]).2 =
        .respond .vnil (.varr [.vint 5,
          .vstr ("route already exists: " ++ m)])) ∧
    (r.routes.lookup m = none →
      (dispatchRequest (dispatchRequest r conn "$/register" [.vstr m]).1
          conn2 "$/register" [.vstr m]).2 =
        .respond .vnil (.varr [.vint 5,
          .vstr ("route already exists: " ++ m)])) ∧
    (∀ c, r.routes.lookup m = some c → (r.routes.map Prod.fst).Nodup →
      (removeMethodsFromConnection r c).routes.lookup m = none) := by
  refine ⟨?_, ?_, ?_, ?_⟩
  · cases hl : r.routes.lookup m with
    | none =>
      simp [dispatchRequest, registerMethod, asString, hl]
    | some c =>
      simp [dispatchRequest, registerMethod, asString, hl, routeErrorEncoded,
        ErrCodeRouteAlreadyExists]
  · intro c hl
    simp [dispatchRequest, registerMethod, asString, hl, routeErrorEncoded,
      ErrCodeRouteAlreadyExists]
  · intro hl
    have h1 : (dispatchRequest r conn "$/register" [.vstr m]).1 =
        { r with routes := (m, conn) :: r.routes } := by
      simp [dispatchRequest, registerMethod, asString, hl]
    rw [h1]
    simp [dispatchRequest, registerMethod, asString, List.lookup,
      routeErrorEncoded, ErrCodeRouteAlreadyExists]
  · intro c hl hnd
    exact remove_owner_lookup_none r.routes m c hl hnd

/-- Witness for the amended C1: `ping` owned by connection 1; a duplicate
register from connection 1 itself fails with code 5, and after the owner
resets, the name is free. -/
theorem register_external_uniqueness_witness :
    (dispatchRequest ⟨[("ping", 1)], [], 0⟩ 1 "$/register" [.vstr "ping"]).2 =
      .respond .vnil (.varr [.vint 5, .vstr ("route already exists: " ++ "ping")]) ∧
    (removeMethodsFromConnection ⟨[("ping", 1)], [], 0⟩ 1).routes.lookup "ping" =
      none :=
  have h := register_external_uniqueness ⟨[("ping", 1)], [], 0⟩ 2 1 "ping"
  ⟨h.2.1 1 (by simp [List.lookup]),
   h.2.2.2 1 (by simp [List.lookup]) (by simp)⟩

/-! ## Forwarding and the `sendMaxWorkers` bound -/

/-- The forwarding step of `connectionLoop` (lines 182-190): the request
is issued on the target connection immediately, with no semaphore or
check of `sendMaxWorkers`; `inFlight` lists the targets of the
outstanding forwarded requests. -/
def forwardToTarget (inFlight : List Nat) (target : Nat) : List Nat :=
  target :: inFlight

/-- `k` forwarded requests to `target` with no completions in between. -/
def forwardN (target : Nat) : Nat → List Nat
  | 0 => []
  | k + 1 => forwardToTarget (forwardN target k) target

/-- **C6.** `New(5)` stores the bound in `sendMaxWorkers`, but dispatch is
entirely independent of that field, and six unanswered forwards to one
target all get issued at once: the per-target in-flight count reaches 6
with the bound set to 5. The bound the claim (and the package's own
congestion-control test) requires is never enforced. -/
theorem forwarding_bound_not_enforced :
    (RouterNew 5).sendMaxWorkers = 5 ∧
    (∀ (routes internal : List (String × Nat)) (b b2 : Int) (conn : Nat)
        (method : String) (params : List GoVal),
      (dispatchRequest ⟨routes, internal, b⟩ conn method params).2 =
      (dispatchRequest ⟨routes, internal, b2⟩ conn method params).2) ∧
    (forwardN 1 6).count 1 = 6 ∧ 5 < 6 := by
  refine ⟨rfl, ?_, by decide, by decide⟩
  intro routes internal b b2 conn method params
  by_cases h1 : method = "$/register"
  · subst h1
    match params with
    | [] => rfl
    | p :: q :: rest => rfl
    | [p] =>
      cases p <;> try rfl
      case vstr s =>
        cases hl : routes.lookup s <;>
          simp [dispatchRequest, registerMethod, asString, hl]
  · by_cases h2 : method = "$/reset"
    · subst h2
      match params with
      | [] => rfl
      | p :: rest => rfl
    · cases hi : internal.lookup method with
      | some hh => simp [dispatchRequest, h1, h2, hi]
      | none =>
        cases hl : routes.lookup method with
        | some c => simp [dispatchRequest, h1, h2, hi, hl]
        | none => simp [dispatchRequest, h1, h2, hi, hl]

end ArduinoRouter
